import Mathlib

/-!
Verification model of the EVE graphics-coprocessor driver (eve.c).

The development shallowly embeds the command-FIFO engine, the register
access layer, the bulk uploader and the touch-calibration math of the
source file.  Machine integers are modelled as `Nat`/`Int` with explicit
reductions: a C `uintN_t` value is a `Nat` taken `% 2^N` at the points
where the C code truncates, and C `intN_t` overflow wrap (two's
complement, as compiled by gcc on the target) is the `wrap32` reduction
on `Int`.  C `/` and `%` on signed operands truncate toward zero, which
is `Int.tdiv` / `Int.tmod`.
-/

namespace EveLib

/-! ## Constants

`WorkBuffSz` is defined in eve.c itself.  The remaining constants come
from the repository's eve.h header, which is not part of the sources
here: `FT_CMD_FIFO_SIZE`, `FT_CMD_SIZE`, `RAM_REG` and `RAM_CMD` are
fixed by the spec and by comments inside eve.c (FIFO window of 4096
bytes, 4-byte command words, register window at 0x302000, FIFO window
at 0x308000); the individual register offsets are modelled from the
spec, which fixes only that they are distinct registers for the device
read cursor, write cursor, display-list cursor, patch pointer, CPU
reset, touch transform block and error-report region. -/

def FT_CMD_FIFO_SIZE : Nat := 4096

def FT_CMD_SIZE : Nat := 4

def WorkBuffSz : Nat := 512

def RAM_REG : Nat := 0x302000

def RAM_CMD : Nat := 0x308000

/-- Modelled from the spec: device read-cursor register offset (the
numeric value lives in the missing eve.h; only distinctness matters). -/
def REG_CMD_READ : Nat := 0xF8

/-- Modelled from the spec: device write-cursor register offset. -/
def REG_CMD_WRITE : Nat := 0xFC

/-- Modelled from the spec: device display-list cursor register offset. -/
def REG_CMD_DL : Nat := 0x100

/-- Modelled from the spec: coprocessor halt/resume register offset. -/
def REG_CPU_RESET : Nat := 0x20

/-- Modelled from the spec: coprocessor patch-pointer register offset. -/
def REG_COPRO_PATCH_PTR : Nat := 0x7162

/-- Modelled from the spec: first register of the touch-transform
coefficient block (six consecutive 32-bit registers). -/
def REG_TOUCH_TRANSFORM_A : Nat := 0x150

/-- Modelled from the spec: base address of the device error-report
string region. -/
def RAM_ERR_REPORT : Nat := 0x309800

/-! ## Register-level events and device state

The device is modelled as a map from addresses to the value most
recently placed there; device-owned registers (the read cursor, the
patch pointer, the error-report bytes) simply hold whatever value the
device currently reports, quantified over in the theorems.  `Ev`
records one framed register transaction of the access layer. -/

inductive Ev where
  | rd8  : Nat → Nat → Ev
  | rd16 : Nat → Nat → Ev
  | rd32 : Nat → Nat → Ev
  | wr8  : Nat → Nat → Ev
  | wr16 : Nat → Nat → Ev
  | wr32 : Nat → Nat → Ev
deriving DecidableEq

structure EveState where
  /-- the host-owned global `uint16_t FifoWriteLocation` of eve.c -/
  fifoWriteLocation : Nat
  /-- device-visible memory and registers, by absolute address -/
  regs : Nat → Nat

def setReg (s : EveState) (a v : Nat) : EveState :=
  { s with regs := fun x => if x = a then v else s.regs x }

/-! ## Command FIFO engine (eve.c lines 890-894, 1143-1160, 1687-1697) -/

/-- `int Eve_Reset(void)`: resets the hardware and zeroes the host
write cursor (`FifoWriteLocation = 0`). -/
def Eve_Reset (s : EveState) : EveState :=
  { s with fifoWriteLocation := 0 }

/-- `void Send_CMD(uint32_t data)`: writes `data` at
`FifoWriteLocation + RAM_CMD` via `wr32`, then advances the `uint16_t`
cursor by `FT_CMD_SIZE` and wraps it `% FT_CMD_FIFO_SIZE`. -/
def Send_CMD (data : Nat) (s : EveState) : EveState :=
  let s1 := setReg s (s.fifoWriteLocation + RAM_CMD) (data % 2 ^ 32)
  { s1 with fifoWriteLocation :=
      ((s1.fifoWriteLocation + FT_CMD_SIZE) % 2 ^ 16) % FT_CMD_FIFO_SIZE }

/-- `void UpdateFIFO(void)`: publishes the host cursor with
`wr16(REG_CMD_WRITE + RAM_REG, FifoWriteLocation)`. -/
def UpdateFIFO (s : EveState) : EveState :=
  setReg s (REG_CMD_WRITE + RAM_REG) (s.fifoWriteLocation % 2 ^ 16)

/-- `uint16_t CoProFIFO_FreeSpace(void)`: reads the two cursor
registers as `uint16_t`, computes
`cmdBufferDiff = (cmdBufferWr - cmdBufferRd) % FT_CMD_FIFO_SIZE` and
returns `(FT_CMD_FIFO_SIZE - 4) - cmdBufferDiff`.  In C both `uint16_t`
operands are promoted to `int`, so the `%` here is the
truncated (sign-carrying) `Int.tmod`, and each assignment back into a
`uint16_t` reduces the signed intermediate `% 2^16`. -/
def CoProFIFO_FreeSpace (s : EveState) : Nat :=
  let cmdBufferRd : Nat := s.regs (REG_CMD_READ + RAM_REG) % 2 ^ 16
  let cmdBufferWr : Nat := s.regs (REG_CMD_WRITE + RAM_REG) % 2 ^ 16
  let cmdBufferDiff : Nat :=
    ((((cmdBufferWr : Int) - (cmdBufferRd : Int)).tmod (FT_CMD_FIFO_SIZE : Int)) % (2 ^ 16)).toNat
  ((((FT_CMD_FIFO_SIZE : Int) - 4) - (cmdBufferDiff : Int)) % (2 ^ 16)).toNat

/-! ## Fault detection and recovery (eve.c lines 1713-1748) -/

/-- Error-report drain loop inside `Wait4CoProFIFOEmpty`: starting at
`Offset = 0`, repeatedly `rd8(RAM_ERR_REPORT + Offset)` and increment,
while the character read is nonzero and `Offset < 128`.  Returns the
events of the reads performed. -/
def errDrain (s : EveState) (offset : Nat) : List Ev :=
  let errChar := s.regs (RAM_ERR_REPORT + offset) % 2 ^ 8
  if h : errChar ≠ 0 ∧ offset + 1 < 128 then
    Ev.rd8 (RAM_ERR_REPORT + offset) errChar :: errDrain s (offset + 1)
  else
    [Ev.rd8 (RAM_ERR_REPORT + offset) errChar]
termination_by 128 - offset
decreasing_by omega

/-- The register operations of the fault-recovery block of
`Wait4CoProFIFOEmpty`, in source order: read the patch pointer, halt
the coprocessor, zero the read cursor, write cursor and display-list
cursor, resume the coprocessor, restore the patch pointer. -/
def recoverySequence (patch : Nat) : List Ev :=
  [ Ev.rd32 (REG_COPRO_PATCH_PTR + RAM_REG) patch,
    Ev.wr8  (REG_CPU_RESET + RAM_REG) 1,
    Ev.wr16 (REG_CMD_READ + RAM_REG) 0,
    Ev.wr16 (REG_CMD_WRITE + RAM_REG) 0,
    Ev.wr16 (REG_CMD_DL + RAM_REG) 0,
    Ev.wr8  (REG_CPU_RESET + RAM_REG) 0,
    Ev.wr32 (REG_COPRO_PATCH_PTR + RAM_REG) patch ]

/-- One iteration of the do-while loop of
`void Wait4CoProFIFOEmpty(void)`: poll `ReadReg = rd16(REG_CMD_READ)`;
if it equals the fault sentinel `0xFFF`, drain the error report and run
the recovery block; then evaluate the loop condition
`ReadReg != rd16(REG_CMD_WRITE)`.  Returns the state after the
iteration, its event trace, and whether the loop continues. -/
def Wait4CoProFIFOEmptyIter (s : EveState) : EveState × List Ev × Bool :=
  let readReg := s.regs (REG_CMD_READ + RAM_REG) % 2 ^ 16
  if readReg = 0xFFF then
    let drain := errDrain s 0
    let patchAdd := s.regs (REG_COPRO_PATCH_PTR + RAM_REG) % 2 ^ 32
    let s1 := setReg s  (REG_CPU_RESET + RAM_REG) 1
    let s2 := setReg s1 (REG_CMD_READ + RAM_REG) 0
    let s3 := setReg s2 (REG_CMD_WRITE + RAM_REG) 0
    let s4 := setReg s3 (REG_CMD_DL + RAM_REG) 0
    let s5 := setReg s4 (REG_CPU_RESET + RAM_REG) 0
    let s6 := setReg s5 (REG_COPRO_PATCH_PTR + RAM_REG) patchAdd
    let wv := s6.regs (REG_CMD_WRITE + RAM_REG) % 2 ^ 16
    (s6,
     Ev.rd16 (REG_CMD_READ + RAM_REG) readReg ::
       (drain ++ recoverySequence patchAdd ++ [Ev.rd16 (REG_CMD_WRITE + RAM_REG) wv]),
     readReg != wv)
  else
    let wv := s.regs (REG_CMD_WRITE + RAM_REG) % 2 ^ 16
    (s,
     [Ev.rd16 (REG_CMD_READ + RAM_REG) readReg, Ev.rd16 (REG_CMD_WRITE + RAM_REG) wv],
     readReg != wv)

/-- The polling loop of `Wait4CoProFIFOEmpty`, cut off after `fuel`
iterations (the C loop has no bound; every claim below is about the
behavior of the iterations actually performed). -/
def Wait4CoProFIFOEmptyLoop : Nat → EveState → EveState × List Ev
  | 0, s => (s, [])
  | fuel + 1, s =>
    let r := Wait4CoProFIFOEmptyIter s
    if r.2.2 then
      let r2 := Wait4CoProFIFOEmptyLoop fuel r.1
      (r2.1, r.2.1 ++ r2.2)
    else
      (r.1, r.2.1)

/-! ## Bulk transfer uploader (eve.c lines 1771-1820) -/

/-- One iteration of the chunk loop of `CoProWrCmdBuf`:
`waitRoom` is the argument passed to `Wait4CoProFIFO`, `offset` the
index into `buff` of the first byte streamed, `size` the
`TransferSize`, `cursorBefore`/`cursorAfter` the values of
`FifoWriteLocation` before and after the iteration; the iteration ends
with `wr16(REG_CMD_WRITE + RAM_REG, FifoWriteLocation)`, publishing
`cursorAfter`. -/
structure Chunk where
  waitRoom : Nat
  offset : Nat
  size : Nat
  cursorBefore : Nat
  cursorAfter : Nat
deriving DecidableEq

/-- The do-while loop of `void CoProWrCmdBuf(const uint8_t *buff,
uint32_t count)`, as the list of chunk iterations it performs.
`remaining` tracks the signed `int32_t Remaining`, which for
`count < 2^31` always equals this `Nat` value while the loop runs:
each iteration waits for `WorkBuffSz` bytes of space, transfers
`WorkBuffSz` bytes while more than `WorkBuffSz` remain and otherwise
the last dribble rounded up by `(Remaining + 3) & 0xFFC`, advances the
cursor `% FT_CMD_FIFO_SIZE` and publishes it; it exits when the
remainder is no longer positive. -/
def coProChunks (remaining offset cursor : Nat) : List Chunk :=
  if h : remaining > WorkBuffSz then
    let after := (cursor + WorkBuffSz) % FT_CMD_FIFO_SIZE
    { waitRoom := WorkBuffSz, offset := offset, size := WorkBuffSz,
      cursorBefore := cursor, cursorAfter := after } ::
      coProChunks (remaining - WorkBuffSz) (offset + WorkBuffSz) after
  else
    let transferSize := (remaining + 3) &&& 0xFFC
    [{ waitRoom := WorkBuffSz, offset := offset, size := transferSize,
       cursorBefore := cursor, cursorAfter := (cursor + transferSize) % FT_CMD_FIFO_SIZE }]
termination_by remaining
decreasing_by simp [WorkBuffSz] at h ⊢; omega

/-- `CoProWrCmdBuf buff count` started with write cursor `cursor`:
the chunk iterations performed (the buffer bytes themselves are opaque
to the flow control being verified). -/
def CoProWrCmdBuf (count cursor : Nat) : List Chunk :=
  coProChunks count 0 cursor

/-! ## Register access layer at transport granularity (eve.c 1019-1138)

For the framing claims the six accessors are modelled as the exact
sequence of transport primitives they invoke: `enable`/`disable`
bracket a transaction, `write b` sends one byte (a buffered
`HAL_SPI_WriteBuffer` of explicit bytes is the same byte sequence),
`read n` reads `n` response bytes. -/

inductive SpiEv where
  | enable : SpiEv
  | disable : SpiEv
  | write : Nat → SpiEv
  | read : Nat → SpiEv
deriving DecidableEq

/-- `void wr32(uint32_t address, uint32_t parameter)`: three address
bytes (each buffer store truncates to `uint8_t`), then the four
parameter bytes low first. -/
def wr32 (address parameter : Nat) : List SpiEv :=
  [ SpiEv.enable,
    SpiEv.write (((address >>> 16) ||| 0x80) % 2 ^ 8),
    SpiEv.write ((address >>> 8) % 2 ^ 8),
    SpiEv.write (address % 2 ^ 8),
    SpiEv.write (parameter &&& 0xFF),
    SpiEv.write ((parameter >>> 8) &&& 0xFF),
    SpiEv.write ((parameter >>> 16) &&& 0xFF),
    SpiEv.write ((parameter >>> 24) &&& 0xFF),
    SpiEv.disable ]

/-- `void wr16(uint32_t address, uint16_t parameter)`. -/
def wr16 (address parameter : Nat) : List SpiEv :=
  [ SpiEv.enable,
    SpiEv.write (((address >>> 16) ||| 0x80) % 2 ^ 8),
    SpiEv.write ((address >>> 8) % 2 ^ 8),
    SpiEv.write (address % 2 ^ 8),
    SpiEv.write ((parameter % 2 ^ 16) &&& 0xFF),
    SpiEv.write (((parameter % 2 ^ 16) >>> 8) % 2 ^ 8),
    SpiEv.disable ]

/-- `void wr8(uint32_t address, uint8_t parameter)`. -/
def wr8 (address parameter : Nat) : List SpiEv :=
  [ SpiEv.enable,
    SpiEv.write (((address >>> 16) ||| 0x80) % 2 ^ 8),
    SpiEv.write ((address >>> 8) % 2 ^ 8),
    SpiEv.write (address % 2 ^ 8),
    SpiEv.write (parameter % 2 ^ 8),
    SpiEv.disable ]

/-- `uint32_t rd32(uint32_t address)` given the four response bytes the
device answers with: emits the three address bytes with the intent
bits masked off (`& 0x3F`), reads four bytes and composes them low
byte first. -/
def rd32 (address b0 b1 b2 b3 : Nat) : Nat × List SpiEv :=
  (b0 % 2 ^ 8 + (b1 % 2 ^ 8) * 2 ^ 8 + (b2 % 2 ^ 8) * 2 ^ 16 + (b3 % 2 ^ 8) * 2 ^ 24,
   [ SpiEv.enable,
     SpiEv.write ((address >>> 16) &&& 0x3F),
     SpiEv.write ((address >>> 8) &&& 0xFF),
     SpiEv.write (address &&& 0xFF),
     SpiEv.read 4,
     SpiEv.disable ])

/-- `uint16_t rd16(uint32_t address)` given the two response bytes. -/
def rd16 (address b0 b1 : Nat) : Nat × List SpiEv :=
  (b0 % 2 ^ 8 + (b1 % 2 ^ 8) * 2 ^ 8,
   [ SpiEv.enable,
     SpiEv.write ((address >>> 16) &&& 0x3F),
     SpiEv.write ((address >>> 8) &&& 0xFF),
     SpiEv.write (address &&& 0xFF),
     SpiEv.read 2,
     SpiEv.disable ])

/-- `uint8_t rd8(uint32_t address)` given the one response byte. -/
def rd8 (address b0 : Nat) : Nat × List SpiEv :=
  (b0 % 2 ^ 8,
   [ SpiEv.enable,
     SpiEv.write ((address >>> 16) &&& 0x3F),
     SpiEv.write ((address >>> 8) &&& 0xFF),
     SpiEv.write (address &&& 0xFF),
     SpiEv.read 1,
     SpiEv.disable ])

/-! ## Touch calibration (eve.c 1486-1559)

The four input arrays are `uint32_t[3]`; all arithmetic on them is
unsigned 32-bit, i.e. exact integer arithmetic reduced `% 2^32`, and
the assignments into the `int32_t` variables `k` and `tmp` reinterpret
that residue as a two's-complement value: the composite of those steps
is `wrap32` of the exact integer value.  The quotient
`((int64_t)tmp << 16) / k` is exact in `int64_t` (`|tmp| ≤ 2^31`), is
`Int.tdiv` (C signed division truncates toward zero), and the store
into the `uint32_t` output array reduces it `% 2^32`. -/

/-- Two's-complement reinterpretation of an integer as a signed 32-bit
value. -/
def wrap32 (x : Int) : Int :=
  (x + 2 ^ 31) % (2 ^ 32) - 2 ^ 31

/-- The determinant `k` of the touch-point system, before the
`int32_t` reduction. -/
def kNum (tX tY : Fin 3 → Int) : Int :=
  (tX 0 - tX 2) * (tY 1 - tY 2) - (tX 1 - tX 2) * (tY 0 - tY 2)

/-- Numerator of coefficients 0 and 3 (`d` is `displayX` resp.
`displayY`), before the `int32_t` reduction. -/
def aNum (d tX tY : Fin 3 → Int) : Int :=
  (d 0 - d 2) * (tY 1 - tY 2) - (d 1 - d 2) * (tY 0 - tY 2)

/-- Numerator of coefficients 1 and 4, before the `int32_t`
reduction. -/
def bNum (d tX tY : Fin 3 → Int) : Int :=
  (tX 0 - tX 2) * (d 1 - d 2) - (d 0 - d 2) * (tX 1 - tX 2)

/-- Numerator of coefficients 2 and 5, before the `int32_t`
reduction. -/
def cNum (d tX tY : Fin 3 → Int) : Int :=
  tY 0 * (tX 2 * d 1 - tX 1 * d 2) +
  tY 1 * (tX 0 * d 2 - tX 2 * d 0) +
  tY 2 * (tX 1 * d 0 - tX 0 * d 1)

/-- One division of `calculate_touch_matrix`:
`out_TransMatrix[i] = ((int64_t)tmp << 16) / k` with the result stored
into a `uint32_t` slot. -/
def coeffStored (tmp k : Int) : Int :=
  ((tmp * 2 ^ 16).tdiv k) % (2 ^ 32)

/-- The divisor used by each of the six divisions of
`calculate_touch_matrix`: every one of them divides by the single
`int32_t` variable `k`. -/
def touchMatrixDivisor (tX tY : Fin 3 → Int) (i : Fin 6) : Int :=
  wrap32 (kNum tX tY)

/-- The numerator `tmp` (as the `int32_t` value) of each of the six
divisions of `calculate_touch_matrix`, in source order. -/
def touchMatrixNumerator (dX dY tX tY : Fin 3 → Int) (i : Fin 6) : Int :=
  match i with
  | 0 => wrap32 (aNum dX tX tY)
  | 1 => wrap32 (bNum dX tX tY)
  | 2 => wrap32 (cNum dX tX tY)
  | 3 => wrap32 (aNum dY tX tY)
  | 4 => wrap32 (bNum dY tX tY)
  | 5 => wrap32 (cNum dY tX tY)

/-- `void calculate_touch_matrix(uint32_t displayX[3], uint32_t
displayY[3], uint32_t touchX[3], uint32_t touchY[3], uint32_t
out_TransMatrix[6])`: the six stored output words, in order. -/
def calculate_touch_matrix (dX dY tX tY : Fin 3 → Int) : List Int :=
  let k := wrap32 (kNum tX tY)
  [ coeffStored (wrap32 (aNum dX tX tY)) k,
    coeffStored (wrap32 (bNum dX tX tY)) k,
    coeffStored (wrap32 (cNum dX tX tY)) k,
    coeffStored (wrap32 (aNum dY tX tY)) k,
    coeffStored (wrap32 (bNum dY tX tY)) k,
    coeffStored (wrap32 (cNum dY tX tY)) k ]

/-- Modelled from the spec: the device applies the six 16.16
coefficients to a raw touch sample `(x, y)`, interpreting each stored
word as signed, producing the display X coordinate times `2^16`.  The
application itself happens in device hardware, not in eve.c. -/
def applyMatrixX (m : List Int) (x y : Int) : Int :=
  wrap32 (m.getD 0 0) * x + wrap32 (m.getD 1 0) * y + wrap32 (m.getD 2 0)

/-- Modelled from the spec: device application of the Y row of the
transform, as `applyMatrixX`. -/
def applyMatrixY (m : List Int) (x y : Int) : Int :=
  wrap32 (m.getD 3 0) * x + wrap32 (m.getD 4 0) * y + wrap32 (m.getD 5 0)

/-- `void Calibrate_Fixed(uint32_t width_pixels, uint32_t
height_pixels, uint32_t touch_x_max, uint32_t touch_y_max)`: builds the
implicit display corners `(0,0), (w,0), (w,h)` and touch corners
`(0,0), (tx,0), (tx,ty)`, computes the transform, and writes the six
coefficients with `wr32(REG_TOUCH_TRANSFORM_A + RAM_REG + count*4,
TransMatrix[count])` for `count = 0..5`. -/
def Calibrate_Fixed (w h tx ty : Int) (s : EveState) : EveState × List Ev :=
  let m := calculate_touch_matrix ![0, w, w] ![0, 0, h] ![0, tx, tx] ![0, 0, ty]
  let writes := (List.range 6).map fun count =>
    (REG_TOUCH_TRANSFORM_A + RAM_REG + count * 4, (m.getD count 0).toNat)
  (writes.foldl (fun st p => setReg st p.1 p.2) s,
   writes.map fun p => Ev.wr32 p.1 p.2)

/-- Bounds of a signed 32-bit value. -/
def inBounds32 (x : Int) : Prop :=
  -(2 ^ 31) ≤ x ∧ x < 2 ^ 31

instance (x : Int) : Decidable (inBounds32 x) := by
  unfold inBounds32; infer_instance

/-! ## Arithmetic helper lemmas -/

theorem neg_tmod (a b : Int) : (-a).tmod b = -(a.tmod b) := by
  simp [Int.tmod_def, Int.neg_tdiv]; ring

theorem tmod_abs_lt_pos (a : Int) {b : Int} (hb : 0 < b) : |a.tmod b| < b := by
  rcases le_or_lt 0 a with ha | ha
  · rw [abs_of_nonneg (Int.tmod_nonneg _ ha)]
    exact Int.tmod_lt_of_pos a hb
  · have h3 : a = -(-a) := by ring
    rw [h3, neg_tmod, abs_neg, abs_of_nonneg (Int.tmod_nonneg _ (by omega))]
    exact Int.tmod_lt_of_pos (-a) hb

theorem tmod_abs_lt (a b : Int) (hb : b ≠ 0) : |a.tmod b| < |b| := by
  rcases lt_trichotomy b 0 with h | h | h
  · have h2 : a.tmod b = a.tmod (-b) := (Int.tmod_neg a b).symm
    rw [h2, abs_of_neg h]
    exact tmod_abs_lt_pos a (by omega)
  · exact absurd h hb
  · rw [abs_of_pos h]
    exact tmod_abs_lt_pos a h

theorem wrap32_eq_self {x : Int} (h1 : -(2 ^ 31) ≤ x) (h2 : x < 2 ^ 31) : wrap32 x = x := by
  unfold wrap32
  rw [Int.emod_eq_of_lt (by omega) (by omega)]
  omega

theorem wrap32_mod (x : Int) : wrap32 (x % (2 ^ 32)) = wrap32 x := by
  unfold wrap32
  omega

set_option maxRecDepth 10000 in
theorem mask_roundup (r : Nat) (h : r ≤ 512) : (r + 3) &&& 0xFFC = (r + 3) / 4 * 4 := by
  revert h
  revert r
  decide

/-! ## Cursor behavior of the FIFO engine -/

theorem Send_CMD_cursor (d : Nat) (s : EveState) :
    (Send_CMD d s).fifoWriteLocation =
      ((s.fifoWriteLocation + 4) % 2 ^ 16) % 4096 := rfl

theorem Send_CMD_regs_low (d : Nat) (s : EveState) (a : Nat) (ha : a < RAM_CMD) :
    (Send_CMD d s).regs a = s.regs a := by
  have hne : a ≠ s.fifoWriteLocation + RAM_CMD := by omega
  unfold Send_CMD setReg
  simp [hne]

theorem sendFold_cursor (cmds : List Nat) (s : EveState)
    (hs : s.fifoWriteLocation < 4096) :
    (cmds.foldl (fun st d => Send_CMD d st) s).fifoWriteLocation =
      (s.fifoWriteLocation + 4 * cmds.length) % 4096 := by
  induction cmds generalizing s with
  | nil => simp; omega
  | cons d tl ih =>
    have h1 : (Send_CMD d s).fifoWriteLocation = (s.fifoWriteLocation + 4) % 4096 := by
      rw [Send_CMD_cursor]; omega
    have h2 : (Send_CMD d s).fifoWriteLocation < 4096 := by
      rw [h1]; omega
    simp only [List.foldl_cons, List.length_cons]
    rw [ih (Send_CMD d s) h2, h1]
    omega

theorem sendFold_regs_low (cmds : List Nat) (s : EveState) (a : Nat) (ha : a < RAM_CMD) :
    ((cmds.foldl (fun st d => Send_CMD d st) s).regs a) = s.regs a := by
  induction cmds generalizing s with
  | nil => rfl
  | cons d tl ih =>
    simp only [List.foldl_cons]
    rw [ih (Send_CMD d s), Send_CMD_regs_low d s a ha]

/-- C2: starting from the initialized state (write cursor reset to 0 by
`Eve_Reset`), after any finite sequence of `Send_CMD` calls the host
write cursor is a multiple of 4 and lies in `[0, FIFO_SIZE)` with
`FIFO_SIZE = 4096`. -/
theorem C2_write_cursor_invariant (s0 : EveState) (cmds : List Nat) :
    (cmds.foldl (fun st d => Send_CMD d st) (Eve_Reset s0)).fifoWriteLocation % 4 = 0 ∧
    (cmds.foldl (fun st d => Send_CMD d st) (Eve_Reset s0)).fifoWriteLocation <
      FT_CMD_FIFO_SIZE := by
  have h0 : (Eve_Reset s0).fifoWriteLocation = 0 := rfl
  have h := sendFold_cursor cmds (Eve_Reset s0) (by rw [h0]; omega)
  rw [h, h0]
  unfold FT_CMD_FIFO_SIZE
  omega

/-! ## Free-space computation -/

theorem CoProFIFO_FreeSpace_formula (s : EveState)
    (hle : s.regs (REG_CMD_READ + RAM_REG) % 2 ^ 16 ≤ s.regs (REG_CMD_WRITE + RAM_REG) % 2 ^ 16)
    (hr4 : s.regs (REG_CMD_READ + RAM_REG) % 2 ^ 16 % 4 = 0)
    (hw4 : s.regs (REG_CMD_WRITE + RAM_REG) % 2 ^ 16 % 4 = 0) :
    CoProFIFO_FreeSpace s =
      FT_CMD_FIFO_SIZE - 4 -
        (s.regs (REG_CMD_WRITE + RAM_REG) % 2 ^ 16 -
         s.regs (REG_CMD_READ + RAM_REG) % 2 ^ 16) % FT_CMD_FIFO_SIZE := by
  unfold CoProFIFO_FreeSpace FT_CMD_FIFO_SIZE
  simp only []
  rw [Int.tmod_eq_emod (by omega) (by omega)]
  omega

/-- C1 (amended): `CoProFIFO_FreeSpace` computes
`FIFO_SIZE - RESERVE - ((wr - rd) mod FIFO_SIZE)` from the two device
cursor registers (`REG_CMD_WRITE`, `REG_CMD_READ`), not from the host
cursor, when the device read cursor does not exceed the device write
cursor and both are word-aligned; consequently `Send_CMD` alone (no
publish) leaves `CoProFIFO_FreeSpace` unchanged, and the value
`FIFO_SIZE - RESERVE - n` is reached only after the `n` enqueued bytes
are published with `UpdateFIFO` (device read cursor still 0). -/
theorem C1_free_space_amended :
    (∀ s : EveState,
      s.regs (REG_CMD_READ + RAM_REG) % 2 ^ 16 ≤ s.regs (REG_CMD_WRITE + RAM_REG) % 2 ^ 16 →
      s.regs (REG_CMD_READ + RAM_REG) % 2 ^ 16 % 4 = 0 →
      s.regs (REG_CMD_WRITE + RAM_REG) % 2 ^ 16 % 4 = 0 →
      CoProFIFO_FreeSpace s =
        FT_CMD_FIFO_SIZE - 4 -
          (s.regs (REG_CMD_WRITE + RAM_REG) % 2 ^ 16 -
           s.regs (REG_CMD_READ + RAM_REG) % 2 ^ 16) % FT_CMD_FIFO_SIZE) ∧
    (∀ (s : EveState) (d : Nat),
      CoProFIFO_FreeSpace (Send_CMD d s) = CoProFIFO_FreeSpace s) ∧
    (∀ (s0 : EveState) (cmds : List Nat),
      s0.regs (REG_CMD_READ + RAM_REG) = 0 →
      4 * cmds.length < FT_CMD_FIFO_SIZE - 4 →
      CoProFIFO_FreeSpace
          (UpdateFIFO (cmds.foldl (fun st d => Send_CMD d st) (Eve_Reset s0))) =
        FT_CMD_FIFO_SIZE - 4 - 4 * cmds.length) := by
  refine ⟨CoProFIFO_FreeSpace_formula, ?_, ?_⟩
  · intro s d
    unfold CoProFIFO_FreeSpace
    rw [Send_CMD_regs_low d s _ (by unfold REG_CMD_READ RAM_REG RAM_CMD; omega),
        Send_CMD_regs_low d s _ (by unfold REG_CMD_WRITE RAM_REG RAM_CMD; omega)]
  · intro s0 cmds hrd hlen
    set sF := cmds.foldl (fun st d => Send_CMD d st) (Eve_Reset s0) with hsF
    have hcur : sF.fifoWriteLocation = 4 * cmds.length % 4096 := by
      rw [hsF, sendFold_cursor cmds (Eve_Reset s0) (by simp [Eve_Reset])]
      simp [Eve_Reset]
    have hrdF : sF.regs (REG_CMD_READ + RAM_REG) = 0 := by
      rw [hsF, sendFold_regs_low cmds _ _ (by unfold REG_CMD_READ RAM_REG RAM_CMD; omega)]
      simpa [Eve_Reset] using hrd
    unfold FT_CMD_FIFO_SIZE at hlen ⊢
    have hwrU : (UpdateFIFO sF).regs (REG_CMD_WRITE + RAM_REG) = sF.fifoWriteLocation % 2 ^ 16 := by
      unfold UpdateFIFO setReg
      simp
    have hrdU : (UpdateFIFO sF).regs (REG_CMD_READ + RAM_REG) = sF.regs (REG_CMD_READ + RAM_REG) := by
      unfold UpdateFIFO setReg
      simp only []
      rw [if_neg (by unfold REG_CMD_READ REG_CMD_WRITE RAM_REG; omega)]
    have hwr2 : (UpdateFIFO sF).regs (REG_CMD_WRITE + RAM_REG) % 2 ^ 16 = 4 * cmds.length := by
      rw [hwrU, hcur]; omega
    have hrd2 : (UpdateFIFO sF).regs (REG_CMD_READ + RAM_REG) % 2 ^ 16 = 0 := by
      rw [hrdU, hrdF]
      rfl
    have := CoProFIFO_FreeSpace_formula (UpdateFIFO sF)
      (by rw [hwr2, hrd2]; omega) (by rw [hrd2]) (by rw [hwr2]; omega)
    rw [this, hwr2, hrd2]
    unfold FT_CMD_FIFO_SIZE
    omega

/-- C1 (witness): two words enqueued from reset and then published
against a device read cursor of 0 leave 4096 - 4 - 8 bytes free. -/
theorem C1_free_space_witness :
    CoProFIFO_FreeSpace
        (UpdateFIFO (([1, 2] : List Nat).foldl (fun st d => Send_CMD d st)
          (Eve_Reset ⟨0, fun _ => 0⟩))) = FT_CMD_FIFO_SIZE - 4 - 4 * 2 :=
  C1_free_space_amended.2.2 ⟨0, fun _ => 0⟩ [1, 2] (by decide) (by decide)

/-- C1 (counterexample): at the state reached from reset by enqueueing
`n = 4` bytes with `Send_CMD` and no publish, `CoProFIFO_FreeSpace`
returns 4092, not `FIFO_SIZE - RESERVE - 4 = 4088` as the claim
instance demands: the function reads the published device write-cursor
register, which `Send_CMD` does not touch.  In addition, at a state
whose read-cursor register (4) exceeds its write-cursor register (0),
the C integer promotions make the function return 4096, not
`4092 - ((0 - 4) mod 4096) = 0`, exceeding even the FIFO size. -/
theorem C1_counterexample :
    (CoProFIFO_FreeSpace (Send_CMD 0 (Eve_Reset ⟨0, fun _ => 0⟩)) = 4092 ∧
     CoProFIFO_FreeSpace (Send_CMD 0 (Eve_Reset ⟨0, fun _ => 0⟩)) ≠
       FT_CMD_FIFO_SIZE - 4 - 4) ∧
    (CoProFIFO_FreeSpace
        ⟨0, fun a => if a = REG_CMD_READ + RAM_REG then 4 else 0⟩ = 4096 ∧
     CoProFIFO_FreeSpace
        ⟨0, fun a => if a = REG_CMD_READ + RAM_REG then 4 else 0⟩ ≠ 0) := by
  decide

/-! ## Fault recovery behavior -/

theorem setReg_cursor (s : EveState) (a v : Nat) :
    (setReg s a v).fifoWriteLocation = s.fifoWriteLocation := rfl

theorem errDrain_all_rd8_aux (s : EveState) :
    ∀ (n off : Nat), 128 - off ≤ n →
      ∀ e ∈ errDrain s off, ∃ a v, e = Ev.rd8 a v := by
  intro n
  induction n with
  | zero =>
    intro off hoff e he
    rw [errDrain] at he
    rw [dif_neg (by omega)] at he
    rcases List.mem_singleton.mp he with rfl
    exact ⟨_, _, rfl⟩
  | succ n ih =>
    intro off hoff e he
    rw [errDrain] at he
    by_cases h : s.regs (RAM_ERR_REPORT + off) % 2 ^ 8 ≠ 0 ∧ off + 1 < 128
    · rw [dif_pos h] at he
      rcases List.mem_cons.mp he with rfl | he2
      · exact ⟨_, _, rfl⟩
      · exact ih (off + 1) (by omega) e he2
    · rw [dif_neg h] at he
      rcases List.mem_singleton.mp he with rfl
      exact ⟨_, _, rfl⟩

theorem errDrain_all_rd8 (s : EveState) (off : Nat) :
    ∀ e ∈ errDrain s off, ∃ a v, e = Ev.rd8 a v :=
  errDrain_all_rd8_aux s (128 - off) off (by omega)

theorem errDrain_count_wr8 (s : EveState) (off a v : Nat) :
    (errDrain s off).count (Ev.wr8 a v) = 0 := by
  rw [List.count_eq_zero]
  intro hmem
  obtain ⟨a2, v2, he⟩ := errDrain_all_rd8 s off _ hmem
  simp at he

theorem Wait4CoProFIFOEmptyIter_cursor (s : EveState) :
    (Wait4CoProFIFOEmptyIter s).1.fifoWriteLocation = s.fifoWriteLocation := by
  unfold Wait4CoProFIFOEmptyIter
  dsimp only
  split <;> rfl

/-- C3: whenever a poll inside `Wait4CoProFIFOEmpty` reads the fault
sentinel `0xFFF` from the device read-cursor register, that iteration
runs exactly one fault-recovery sequence before the loop condition is
re-evaluated and polling resumes: it reads and retains the patch
pointer, halts the coprocessor, zeroes the read-cursor, write-cursor
and display-list-cursor registers, resumes the coprocessor and
restores the retained patch pointer, in that order; the host-side
`FifoWriteLocation` is left untouched by every iteration of the
loop. -/
theorem C3_fault_recovery :
    (∀ s : EveState,
      s.regs (REG_CMD_READ + RAM_REG) % 2 ^ 16 = 0xFFF →
      (Wait4CoProFIFOEmptyIter s).2.1 =
        Ev.rd16 (REG_CMD_READ + RAM_REG) 0xFFF ::
          (errDrain s 0 ++
           recoverySequence (s.regs (REG_COPRO_PATCH_PTR + RAM_REG) % 2 ^ 32) ++
           [Ev.rd16 (REG_CMD_WRITE + RAM_REG) 0]) ∧
      (Wait4CoProFIFOEmptyIter s).2.1.count (Ev.wr8 (REG_CPU_RESET + RAM_REG) 1) = 1 ∧
      (Wait4CoProFIFOEmptyIter s).2.2 = true ∧
      (Wait4CoProFIFOEmptyIter s).1.fifoWriteLocation = s.fifoWriteLocation) ∧
    (∀ (fuel : Nat) (s : EveState),
      (Wait4CoProFIFOEmptyLoop fuel s).1.fifoWriteLocation = s.fifoWriteLocation) := by
  constructor
  · intro s hf
    have hwv :
        (setReg (setReg (setReg (setReg (setReg (setReg s
          (REG_CPU_RESET + RAM_REG) 1) (REG_CMD_READ + RAM_REG) 0)
          (REG_CMD_WRITE + RAM_REG) 0) (REG_CMD_DL + RAM_REG) 0)
          (REG_CPU_RESET + RAM_REG) 0)
          (REG_COPRO_PATCH_PTR + RAM_REG) (s.regs (REG_COPRO_PATCH_PTR + RAM_REG) % 2 ^ 32)).regs
          (REG_CMD_WRITE + RAM_REG) % 2 ^ 16 = 0 := by
      unfold setReg REG_CMD_WRITE REG_COPRO_PATCH_PTR REG_CPU_RESET REG_CMD_DL RAM_REG
      norm_num
    refine ⟨?_, ?_, ?_, ?_⟩
    · unfold Wait4CoProFIFOEmptyIter
      rw [if_pos hf]
      simp only [hf, hwv]
    · unfold Wait4CoProFIFOEmptyIter
      rw [if_pos hf]
      simp only []
      rw [List.count_cons]
      rw [List.count_append, List.count_append]
      rw [errDrain_count_wr8]
      unfold recoverySequence
      simp [List.count_cons, REG_CPU_RESET, REG_CMD_READ, REG_CMD_WRITE, REG_CMD_DL,
        REG_COPRO_PATCH_PTR, RAM_REG]
    · unfold Wait4CoProFIFOEmptyIter
      rw [if_pos hf]
      simp only [hwv]
      rw [hf]
      decide
    · exact Wait4CoProFIFOEmptyIter_cursor s
  · intro fuel
    induction fuel with
    | zero => intro s; rfl
    | succ n ih =>
      intro s
      unfold Wait4CoProFIFOEmptyLoop
      simp only []
      split
      · rw [ih (Wait4CoProFIFOEmptyIter s).1, Wait4CoProFIFOEmptyIter_cursor]
      · exact Wait4CoProFIFOEmptyIter_cursor s

/-- C3 (witness): a concrete state reporting the fault sentinel with
patch pointer 0x1234 and an empty error report: the iteration performs
exactly the recovery sequence and keeps the host cursor at 77. -/
theorem C3_fault_recovery_witness :
    (Wait4CoProFIFOEmptyIter
        ⟨77, fun a => if a = REG_CMD_READ + RAM_REG then 0xFFF
                      else if a = REG_COPRO_PATCH_PTR + RAM_REG then 0x1234 else 0⟩).2.1 =
      Ev.rd16 (REG_CMD_READ + RAM_REG) 0xFFF ::
        (errDrain
          ⟨77, fun a => if a = REG_CMD_READ + RAM_REG then 0xFFF
                        else if a = REG_COPRO_PATCH_PTR + RAM_REG then 0x1234 else 0⟩ 0 ++
         recoverySequence 0x1234 ++ [Ev.rd16 (REG_CMD_WRITE + RAM_REG) 0]) ∧
    (Wait4CoProFIFOEmptyIter
        ⟨77, fun a => if a = REG_CMD_READ + RAM_REG then 0xFFF
                      else if a = REG_COPRO_PATCH_PTR + RAM_REG then 0x1234 else 0⟩).1.fifoWriteLocation = 77 := by
  have h := C3_fault_recovery.1
    ⟨77, fun a => if a = REG_CMD_READ + RAM_REG then 0xFFF
                  else if a = REG_COPRO_PATCH_PTR + RAM_REG then 0x1234 else 0⟩
    (by decide)
  have hp : (⟨77, fun a => if a = REG_CMD_READ + RAM_REG then 0xFFF
                  else if a = REG_COPRO_PATCH_PTR + RAM_REG then 0x1234 else 0⟩ :
      EveState).regs (REG_COPRO_PATCH_PTR + RAM_REG) % 2 ^ 32 = 0x1234 := by decide
  exact ⟨by rw [h.1, hp], h.2.2.2⟩

/-! ## Chunking behavior of the bulk uploader -/

theorem getLastD_irrel {α : Type} {l : List α} (h : l ≠ []) (d1 d2 : α) :
    l.getLastD d1 = l.getLastD d2 := by
  cases l with
  | nil => exact absurd rfl h
  | cons a t => rw [List.getLastD_cons, List.getLastD_cons]

theorem coProChunks_ne_nil (r o c : Nat) : coProChunks r o c ≠ [] := by
  induction r, o, c using coProChunks.induct with
  | case1 r o c h after ih =>
    rw [coProChunks]
    simp [h]
  | case2 r o c h =>
    rw [coProChunks]
    simp [h]

theorem coProChunks_mem (r o c : Nat) (ho : o % WorkBuffSz = 0) :
    ∀ ch ∈ coProChunks r o c,
      ch.waitRoom = WorkBuffSz ∧ ch.size ≤ WorkBuffSz ∧ ch.size % 4 = 0 ∧
      ch.offset % WorkBuffSz = 0 ∧ ch.offset % 4 = 0 ∧
      ch.cursorAfter = (ch.cursorBefore + ch.size) % FT_CMD_FIFO_SIZE := by
  induction r, o, c using coProChunks.induct with
  | case1 r o c h after ih =>
    rw [coProChunks]
    rw [dif_pos h]
    intro ch hch
    rcases List.mem_cons.mp hch with rfl | hch2
    · dsimp only
      unfold WorkBuffSz at ho ⊢
      exact ⟨rfl, by omega, by omega, ho, by omega, rfl⟩
    · exact ih (by unfold WorkBuffSz at ho ⊢; omega) ch hch2
  | case2 r o c h =>
    rw [coProChunks]
    rw [dif_neg h]
    intro ch hch
    rcases List.mem_singleton.mp hch with rfl
    dsimp only
    unfold WorkBuffSz at h ho ⊢
    rw [mask_roundup r (by omega)]
    exact ⟨rfl, by omega, by omega, ho, by omega, rfl⟩

theorem coProChunks_dropLast (r o c : Nat) :
    ∀ ch ∈ (coProChunks r o c).dropLast, ch.size = WorkBuffSz := by
  induction r, o, c using coProChunks.induct with
  | case1 r o c h after ih =>
    rw [coProChunks]
    rw [dif_pos h]
    rw [List.dropLast_cons_of_ne_nil (coProChunks_ne_nil _ _ _)]
    intro ch hch
    rcases List.mem_cons.mp hch with rfl | hch2
    · rfl
    · exact ih ch hch2
  | case2 r o c h =>
    rw [coProChunks]
    rw [dif_neg h]
    intro ch hch
    simp at hch

theorem coProChunks_last_size (r o c : Nat) :
    ((coProChunks r o c).getLastD ⟨0, 0, 0, 0, 0⟩).size =
      (r - WorkBuffSz * ((coProChunks r o c).length - 1) + 3) / 4 * 4 ∧
    r - WorkBuffSz * ((coProChunks r o c).length - 1) ≤ WorkBuffSz := by
  induction r, o, c using coProChunks.induct with
  | case1 r o c h after ih =>
    rw [coProChunks]
    rw [dif_pos h]
    have hafter : (c + WorkBuffSz) % FT_CMD_FIFO_SIZE = after := rfl
    rw [hafter]
    rcases ih with ⟨ih1, ih2⟩
    have hne := coProChunks_ne_nil (r - WorkBuffSz) (o + WorkBuffSz) after
    have hlen : 0 < (coProChunks (r - WorkBuffSz) (o + WorkBuffSz) after).length :=
      List.length_pos.mpr hne
    simp only [List.length_cons]
    rw [List.getLastD_cons, getLastD_irrel hne _ ⟨0, 0, 0, 0, 0⟩, ih1]
    unfold WorkBuffSz at h ih2 hlen ⊢
    constructor
    · have heq : r - 512 - 512 * ((coProChunks (r - 512) (o + 512) after).length - 1) =
          r - 512 * ((coProChunks (r - 512) (o + 512) after).length + 1 - 1) := by
        omega
      rw [heq]
    · omega
  | case2 r o c h =>
    rw [coProChunks]
    rw [dif_neg h]
    unfold WorkBuffSz at h ⊢
    simp only [List.getLastD_cons, List.length_cons, List.length_nil]
    rw [mask_roundup r (by omega)]
    constructor
    · simp only [List.getLastD_nil]
      omega
    · omega

theorem coProChunks_headD_cursor (r o c : Nat) :
    ((coProChunks r o c).headD ⟨0, 0, 0, 0, 0⟩).cursorBefore = c := by
  rw [coProChunks]
  split <;> rfl

theorem coProChunks_headD_offset (r o c : Nat) :
    ((coProChunks r o c).headD ⟨0, 0, 0, 0, 0⟩).offset = o := by
  rw [coProChunks]
  split <;> rfl

theorem coProChunks_chain (r o c : Nat) :
    (coProChunks r o c).Chain'
      (fun a b => b.cursorBefore = a.cursorAfter ∧ b.offset = a.offset + a.size) := by
  induction r, o, c using coProChunks.induct with
  | case1 r o c h after ih =>
    rw [coProChunks]
    rw [dif_pos h]
    refine List.Chain'.cons' ih ?_
    intro y hy
    have h1 := coProChunks_headD_cursor (r - WorkBuffSz) (o + WorkBuffSz) after
    have h2 := coProChunks_headD_offset (r - WorkBuffSz) (o + WorkBuffSz) after
    cases hhd : (coProChunks (r - WorkBuffSz) (o + WorkBuffSz) after) with
    | nil => rw [hhd] at hy; simp at hy
    | cons z t =>
      rw [hhd] at hy h1 h2
      simp only [List.head?_cons, Option.mem_some_iff] at hy
      subst hy
      simp only [List.headD_cons] at h1 h2
      exact ⟨h1, h2⟩
  | case2 r o c h =>
    rw [coProChunks]
    rw [dif_neg h]
    simp

/-- C4 (amended): `CoProWrCmdBuf` splits the `count` input bytes into
successive chunks each no larger than `WorkBuffSz = 512` bytes; every
chunk except possibly the last transfers exactly 512 bytes, the last
transfers the length remainder rounded up to the next multiple of 4,
chunk offsets and sizes are multiples of 4 (so no 4-byte command word
straddles a chunk boundary), after each chunk the write cursor
advances by the chunk size modulo `FIFO_SIZE = 4096` and is published;
but before each chunk the code blocks until `WorkBuffSz` bytes are
free — the full working-buffer size, which is at least (and in general
more than) the chunk size the claim names. -/
theorem C4_upload_chunking_amended (count cursor : Nat)
    (hcount : count < 2 ^ 31) (hcur : cursor < FT_CMD_FIFO_SIZE) :
    CoProWrCmdBuf count cursor ≠ [] ∧
    (∀ ch ∈ CoProWrCmdBuf count cursor,
      ch.waitRoom = WorkBuffSz ∧ ch.size ≤ WorkBuffSz ∧ ch.size % 4 = 0 ∧
      ch.offset % WorkBuffSz = 0 ∧ ch.offset % 4 = 0 ∧
      ch.cursorAfter = (ch.cursorBefore + ch.size) % FT_CMD_FIFO_SIZE) ∧
    (∀ ch ∈ (CoProWrCmdBuf count cursor).dropLast, ch.size = WorkBuffSz) ∧
    ((CoProWrCmdBuf count cursor).getLastD ⟨0, 0, 0, 0, 0⟩).size =
      (count - WorkBuffSz * ((CoProWrCmdBuf count cursor).length - 1) + 3) / 4 * 4 ∧
    count - WorkBuffSz * ((CoProWrCmdBuf count cursor).length - 1) ≤ WorkBuffSz ∧
    ((CoProWrCmdBuf count cursor).headD ⟨0, 0, 0, 0, 0⟩).cursorBefore = cursor ∧
    ((CoProWrCmdBuf count cursor).headD ⟨0, 0, 0, 0, 0⟩).offset = 0 ∧
    (CoProWrCmdBuf count cursor).Chain'
      (fun a b => b.cursorBefore = a.cursorAfter ∧ b.offset = a.offset + a.size) := by
  refine ⟨coProChunks_ne_nil _ _ _, coProChunks_mem _ _ _ (by decide), coProChunks_dropLast _ _ _,
    (coProChunks_last_size _ _ _).1, (coProChunks_last_size _ _ _).2,
    coProChunks_headD_cursor _ _ _, coProChunks_headD_offset _ _ _, coProChunks_chain _ _ _⟩

/-- C4 (witness): a 700-byte upload from cursor 4000 makes two chunks:
a full 512-byte chunk wrapping the cursor, then a final chunk of
188 bytes rounded to 188 (700 - 512 = 188, already a multiple of 4). -/
theorem C4_upload_chunking_witness :
    CoProWrCmdBuf 700 4000 ≠ [] ∧
    (∀ ch ∈ (CoProWrCmdBuf 700 4000).dropLast, ch.size = WorkBuffSz) ∧
    ((CoProWrCmdBuf 700 4000).getLastD ⟨0, 0, 0, 0, 0⟩).size =
      (700 - WorkBuffSz * ((CoProWrCmdBuf 700 4000).length - 1) + 3) / 4 * 4 := by
  have h := C4_upload_chunking_amended 700 4000 (by decide) (by decide)
  exact ⟨h.1, h.2.2.1, h.2.2.2.1⟩

/-- C4 (counterexample): uploading a 4-byte buffer produces a single
chunk of transfer size 4, but the iteration blocks for
`WorkBuffSz = 512` free bytes, not for the 4-byte chunk size: the
claim that upload blocks until free space is at least the chunk size
does not match the code, which always demands 512 bytes. -/
theorem C4_upload_chunking_counterexample :
    CoProWrCmdBuf 4 0 =
      [{ waitRoom := 512, offset := 0, size := 4, cursorBefore := 0, cursorAfter := 4 }] ∧
    ¬ (∀ ch ∈ CoProWrCmdBuf 4 0, ch.waitRoom = ch.size) := by
  have h : CoProWrCmdBuf 4 0 =
      [{ waitRoom := 512, offset := 0, size := 4, cursorBefore := 0, cursorAfter := 4 }] := by
    rw [CoProWrCmdBuf, coProChunks]
    rw [dif_neg (by decide)]
    norm_num
    decide
  refine ⟨h, ?_⟩
  rw [h]
  decide

/-- C10: a zero-length upload still runs the chunk loop body exactly
once: it waits for 512 free bytes, performs a zero-byte transfer,
leaves the write cursor unchanged and publishes that unchanged cursor
once. -/
theorem C10_upload_zero_length (cursor : Nat) (hcur : cursor < FT_CMD_FIFO_SIZE) :
    CoProWrCmdBuf 0 cursor =
      [{ waitRoom := WorkBuffSz, offset := 0, size := 0,
         cursorBefore := cursor, cursorAfter := cursor }] := by
  rw [CoProWrCmdBuf, coProChunks]
  rw [dif_neg (by decide)]
  have hm : (0 + 3) &&& 0xFFC = 0 := by decide
  rw [hm]
  unfold FT_CMD_FIFO_SIZE at hcur
  simp only [Nat.add_zero, Nat.mod_eq_of_lt hcur, FT_CMD_FIFO_SIZE]

/-- C10 (witness): the zero-length upload at cursor 0. -/
theorem C10_upload_zero_length_witness :
    CoProWrCmdBuf 0 0 =
      [{ waitRoom := WorkBuffSz, offset := 0, size := 0,
         cursorBefore := 0, cursorAfter := 0 }] :=
  C10_upload_zero_length 0 (by decide)

/-! ## Transport framing of the register access layer -/

theorem or128_small : ∀ u : Nat, u < 64 → (u ||| 128) % 256 = 128 + u := by decide

theorem and63_small : ∀ u : Nat, u < 64 → u &&& 63 = u := by decide

theorem and255_eq_mod (x : Nat) : x &&& 0xFF = x % 2 ^ 8 :=
  Nat.and_pow_two_sub_one_eq_mod x 8

/-- C8: every one of `wr8`/`wr16`/`wr32` emits, inside one
enable/disable transaction bracket, exactly three address bytes — the
first being the address's bits 16–21 with the top bit set to mark
write intent, then bits 8–15, then bits 0–7 — followed by the value's
bytes least-significant first; every one of `rd8`/`rd16`/`rd32` emits
the three address bytes with the intent bits of the first byte clear
(the first byte is below 2^6) and composes the response bytes
least-significant first. -/
theorem C8_transport_framing (address v32 v16 v8 b0 b1 b2 b3 : Nat)
    (ha : address < 2 ^ 22) (h16 : v16 < 2 ^ 16) (h8 : v8 < 2 ^ 8)
    (hb0 : b0 < 2 ^ 8) (hb1 : b1 < 2 ^ 8) (hb2 : b2 < 2 ^ 8) (hb3 : b3 < 2 ^ 8) :
    address / 2 ^ 16 < 2 ^ 6 ∧
    wr32 address v32 =
      [ SpiEv.enable,
        SpiEv.write (2 ^ 7 + address / 2 ^ 16),
        SpiEv.write (address / 2 ^ 8 % 2 ^ 8),
        SpiEv.write (address % 2 ^ 8),
        SpiEv.write (v32 % 2 ^ 8),
        SpiEv.write (v32 / 2 ^ 8 % 2 ^ 8),
        SpiEv.write (v32 / 2 ^ 16 % 2 ^ 8),
        SpiEv.write (v32 / 2 ^ 24 % 2 ^ 8),
        SpiEv.disable ] ∧
    wr16 address v16 =
      [ SpiEv.enable,
        SpiEv.write (2 ^ 7 + address / 2 ^ 16),
        SpiEv.write (address / 2 ^ 8 % 2 ^ 8),
        SpiEv.write (address % 2 ^ 8),
        SpiEv.write (v16 % 2 ^ 8),
        SpiEv.write (v16 / 2 ^ 8),
        SpiEv.disable ] ∧
    wr8 address v8 =
      [ SpiEv.enable,
        SpiEv.write (2 ^ 7 + address / 2 ^ 16),
        SpiEv.write (address / 2 ^ 8 % 2 ^ 8),
        SpiEv.write (address % 2 ^ 8),
        SpiEv.write v8,
        SpiEv.disable ] ∧
    rd32 address b0 b1 b2 b3 =
      (b0 + b1 * 2 ^ 8 + b2 * 2 ^ 16 + b3 * 2 ^ 24,
       [ SpiEv.enable,
         SpiEv.write (address / 2 ^ 16),
         SpiEv.write (address / 2 ^ 8 % 2 ^ 8),
         SpiEv.write (address % 2 ^ 8),
         SpiEv.read 4,
         SpiEv.disable ]) ∧
    rd16 address b0 b1 =
      (b0 + b1 * 2 ^ 8,
       [ SpiEv.enable,
         SpiEv.write (address / 2 ^ 16),
         SpiEv.write (address / 2 ^ 8 % 2 ^ 8),
         SpiEv.write (address % 2 ^ 8),
         SpiEv.read 2,
         SpiEv.disable ]) ∧
    rd8 address b0 =
      (b0,
       [ SpiEv.enable,
         SpiEv.write (address / 2 ^ 16),
         SpiEv.write (address / 2 ^ 8 % 2 ^ 8),
         SpiEv.write (address % 2 ^ 8),
         SpiEv.read 1,
         SpiEv.disable ]) := by
  have hu : address >>> 16 = address / 2 ^ 16 := Nat.shiftRight_eq_div_pow address 16
  have hu8 : address >>> 8 = address / 2 ^ 8 := Nat.shiftRight_eq_div_pow address 8
  have hv8 : v32 >>> 8 = v32 / 2 ^ 8 := Nat.shiftRight_eq_div_pow v32 8
  have hv16 : v32 >>> 16 = v32 / 2 ^ 16 := Nat.shiftRight_eq_div_pow v32 16
  have hv24 : v32 >>> 24 = v32 / 2 ^ 24 := Nat.shiftRight_eq_div_pow v32 24
  have hu64 : address / 2 ^ 16 < 64 := by omega
  have hhi : (address / 2 ^ 16 ||| 0x80) % 2 ^ 8 = 2 ^ 7 + address / 2 ^ 16 := by
    have := or128_small (address / 2 ^ 16) hu64
    norm_num at this ⊢
    omega
  have hlo : address / 2 ^ 16 &&& 0x3F = address / 2 ^ 16 := by
    have := and63_small (address / 2 ^ 16) hu64
    norm_num at this ⊢
    omega
  refine ⟨by omega, ?_, ?_, ?_, ?_, ?_, ?_⟩
  · simp only [wr32, hu, hu8, hhi, and255_eq_mod, hv8, hv16, hv24]
  · have hm16 : v16 % 2 ^ 16 = v16 := Nat.mod_eq_of_lt h16
    have hd16 : v16 / 2 ^ 8 % 2 ^ 8 = v16 / 2 ^ 8 := Nat.mod_eq_of_lt (by omega)
    simp only [wr16, hu, hu8, hhi, hm16, and255_eq_mod, Nat.shiftRight_eq_div_pow, hd16]
  · have hm8 : v8 % 2 ^ 8 = v8 := Nat.mod_eq_of_lt h8
    simp only [wr8, hu, hu8, hhi, hm8]
  · simp only [rd32, hu, hu8, hlo, and255_eq_mod,
      Nat.mod_eq_of_lt hb0, Nat.mod_eq_of_lt hb1, Nat.mod_eq_of_lt hb2, Nat.mod_eq_of_lt hb3]
  · simp only [rd16, hu, hu8, hlo, and255_eq_mod,
      Nat.mod_eq_of_lt hb0, Nat.mod_eq_of_lt hb1]
  · simp only [rd8, hu, hu8, hlo, and255_eq_mod, Nat.mod_eq_of_lt hb0]

/-- C8 (witness): the framing at address `RAM_REG` (0x302000) with
representative payload and response bytes. -/
theorem C8_transport_framing_witness :
    wr32 0x302000 0x12345678 =
      [ SpiEv.enable, SpiEv.write 0xB0, SpiEv.write 0x20, SpiEv.write 0x00,
        SpiEv.write 0x78, SpiEv.write 0x56, SpiEv.write 0x34, SpiEv.write 0x12,
        SpiEv.disable ] ∧
    rd16 0x302000 0xCD 0xAB =
      (0xABCD,
       [ SpiEv.enable, SpiEv.write 0x30, SpiEv.write 0x20, SpiEv.write 0x00,
         SpiEv.read 2, SpiEv.disable ]) := by
  have h := C8_transport_framing 0x302000 0x12345678 0xFFFF 0xFF 0xCD 0xAB 0 0
    (by decide) (by decide) (by decide) (by decide) (by decide) (by decide) (by decide)
  refine ⟨?_, ?_⟩
  · rw [h.2.1]
    decide
  · rw [h.2.2.2.2.2.1]
    decide

/-! ## Touch-calibration algebra -/

theorem cramer0 (d tX tY : Fin 3 → Int) :
    aNum d tX tY * tX 0 + bNum d tX tY * tY 0 + cNum d tX tY = kNum tX tY * d 0 := by
  unfold aNum bNum cNum kNum; ring

theorem cramer1 (d tX tY : Fin 3 → Int) :
    aNum d tX tY * tX 1 + bNum d tX tY * tY 1 + cNum d tX tY = kNum tX tY * d 1 := by
  unfold aNum bNum cNum kNum; ring

theorem cramer2 (d tX tY : Fin 3 → Int) :
    aNum d tX tY * tX 2 + bNum d tX tY * tY 2 + cNum d tX tY = kNum tX tY * d 2 := by
  unfold aNum bNum cNum kNum; ring

theorem det2_abs_le {p q u v : Int} (hp : |p| ≤ 2000) (hq : |q| ≤ 2000)
    (hu : |u| ≤ 2000) (hv : |v| ≤ 2000) : |p * q - u * v| ≤ 8000000 := by
  have h1 : |p * q| ≤ 2000 * 2000 :=
    abs_mul p q ▸ mul_le_mul hp hq (abs_nonneg q) (by norm_num)
  have h2 : |u * v| ≤ 2000 * 2000 :=
    abs_mul u v ▸ mul_le_mul hu hv (abs_nonneg v) (by norm_num)
  calc |p * q - u * v| = |p * q + -(u * v)| := by ring_nf
    _ ≤ |p * q| + |-(u * v)| := abs_add _ _
    _ = |p * q| + |u * v| := by rw [abs_neg]
    _ ≤ 8000000 := by omega

theorem coord_diff_abs {x y : Int} (hx1 : 0 ≤ x) (hx2 : x ≤ 2000)
    (hy1 : 0 ≤ y) (hy2 : y ≤ 2000) : |x - y| ≤ 2000 :=
  abs_le.mpr ⟨by omega, by omega⟩

theorem kNum_abs_le (tX tY : Fin 3 → Int)
    (htX : ∀ i, 0 ≤ tX i ∧ tX i ≤ 2000) (htY : ∀ i, 0 ≤ tY i ∧ tY i ≤ 2000) :
    |kNum tX tY| ≤ 8000000 :=
  det2_abs_le
    (coord_diff_abs (htX 0).1 (htX 0).2 (htX 2).1 (htX 2).2)
    (coord_diff_abs (htY 1).1 (htY 1).2 (htY 2).1 (htY 2).2)
    (coord_diff_abs (htX 1).1 (htX 1).2 (htX 2).1 (htX 2).2)
    (coord_diff_abs (htY 0).1 (htY 0).2 (htY 2).1 (htY 2).2)

theorem aNum_abs_le (d tX tY : Fin 3 → Int)
    (hd : ∀ i, 0 ≤ d i ∧ d i ≤ 2000) (htY : ∀ i, 0 ≤ tY i ∧ tY i ≤ 2000) :
    |aNum d tX tY| ≤ 8000000 :=
  det2_abs_le
    (coord_diff_abs (hd 0).1 (hd 0).2 (hd 2).1 (hd 2).2)
    (coord_diff_abs (htY 1).1 (htY 1).2 (htY 2).1 (htY 2).2)
    (coord_diff_abs (hd 1).1 (hd 1).2 (hd 2).1 (hd 2).2)
    (coord_diff_abs (htY 0).1 (htY 0).2 (htY 2).1 (htY 2).2)

theorem bNum_abs_le (d tX tY : Fin 3 → Int)
    (hd : ∀ i, 0 ≤ d i ∧ d i ≤ 2000) (htX : ∀ i, 0 ≤ tX i ∧ tX i ≤ 2000) :
    |bNum d tX tY| ≤ 8000000 :=
  det2_abs_le
    (coord_diff_abs (htX 0).1 (htX 0).2 (htX 2).1 (htX 2).2)
    (coord_diff_abs (hd 1).1 (hd 1).2 (hd 2).1 (hd 2).2)
    (coord_diff_abs (hd 0).1 (hd 0).2 (hd 2).1 (hd 2).2)
    (coord_diff_abs (htX 1).1 (htX 1).2 (htX 2).1 (htX 2).2)

theorem coeff_apply_close (k nA nB nC d x y : Int) (hk : k ≠ 0)
    (hd : nA * x + nB * y + nC = k * d)
    (hx1 : 0 ≤ x) (hx2 : x ≤ 2000) (hy1 : 0 ≤ y) (hy2 : y ≤ 2000) :
    |((nA * 2 ^ 16).tdiv k) * x + ((nB * 2 ^ 16).tdiv k) * y + (nC * 2 ^ 16).tdiv k
      - 2 ^ 16 * d| ≤ 2 ^ 16 := by
  set qA := (nA * 2 ^ 16).tdiv k with hqA
  set qB := (nB * 2 ^ 16).tdiv k with hqB
  set qC := (nC * 2 ^ 16).tdiv k with hqC
  set rA := (nA * 2 ^ 16).tmod k with hrA
  set rB := (nB * 2 ^ 16).tmod k with hrB
  set rC := (nC * 2 ^ 16).tmod k with hrC
  have eA : k * qA + rA = nA * 2 ^ 16 := Int.tdiv_add_tmod _ _
  have eB : k * qB + rB = nB * 2 ^ 16 := Int.tdiv_add_tmod _ _
  have eC : k * qC + rC = nC * 2 ^ 16 := Int.tdiv_add_tmod _ _
  have hrAb : |rA| < |k| := tmod_abs_lt _ _ hk
  have hrBb : |rB| < |k| := tmod_abs_lt _ _ hk
  have hrCb : |rC| < |k| := tmod_abs_lt _ _ hk
  have key : k * (qA * x + qB * y + qC - 2 ^ 16 * d) = -(rA * x + rB * y + rC) := by
    linear_combination x * eA + y * eB + eC + 2 ^ 16 * hd
  have habs : |k| * |qA * x + qB * y + qC - 2 ^ 16 * d| = |rA * x + rB * y + rC| := by
    rw [← abs_mul, key, abs_neg]
  have hrhs : |rA * x + rB * y + rC| ≤ (|k| - 1) * (x + y + 1) := by
    have t1 : |rA * x| ≤ (|k| - 1) * x := by
      rw [abs_mul, abs_of_nonneg hx1]
      have : |rA| ≤ |k| - 1 := by omega
      exact mul_le_mul_of_nonneg_right this hx1
    have t2 : |rB * y| ≤ (|k| - 1) * y := by
      rw [abs_mul, abs_of_nonneg hy1]
      have : |rB| ≤ |k| - 1 := by omega
      exact mul_le_mul_of_nonneg_right this hy1
    have t3 : |rC| ≤ |k| - 1 := by omega
    calc |rA * x + rB * y + rC| ≤ |rA * x + rB * y| + |rC| := abs_add _ _
      _ ≤ |rA * x| + |rB * y| + |rC| := by
          have := abs_add (rA * x) (rB * y); omega
      _ ≤ (|k| - 1) * x + (|k| - 1) * y + (|k| - 1) := by omega
      _ = (|k| - 1) * (x + y + 1) := by ring
  have hK : 1 ≤ |k| := by
    have := abs_pos.mpr hk; omega
  set T := |qA * x + qB * y + qC - 2 ^ 16 * d| with hT
  have hT0 : 0 ≤ T := abs_nonneg _
  have hmain : |k| * T ≤ (|k| - 1) * (x + y + 1) := by omega
  have hfin : T ≤ x + y + 1 := by nlinarith
  omega

/-- C6: `calculate_touch_matrix` performs no runtime check of the
determinant: each of its six divisions divides by the single `int32_t`
value `k`, so when the touch points are non-collinear (`k ≠ 0`) every
division has a nonzero divisor, while the collinear touch points
`(0,0), (1,1), (2,2)` produce `k = 0` and every division divides by
zero. -/
theorem C6_no_determinant_check :
    (∀ (dX dY tX tY : Fin 3 → Int),
      calculate_touch_matrix dX dY tX tY =
        [ coeffStored (touchMatrixNumerator dX dY tX tY 0) (touchMatrixDivisor tX tY 0),
          coeffStored (touchMatrixNumerator dX dY tX tY 1) (touchMatrixDivisor tX tY 1),
          coeffStored (touchMatrixNumerator dX dY tX tY 2) (touchMatrixDivisor tX tY 2),
          coeffStored (touchMatrixNumerator dX dY tX tY 3) (touchMatrixDivisor tX tY 3),
          coeffStored (touchMatrixNumerator dX dY tX tY 4) (touchMatrixDivisor tX tY 4),
          coeffStored (touchMatrixNumerator dX dY tX tY 5) (touchMatrixDivisor tX tY 5) ]) ∧
    (∀ (tX tY : Fin 3 → Int) (i : Fin 6),
      wrap32 (kNum tX tY) ≠ 0 → touchMatrixDivisor tX tY i ≠ 0) ∧
    (kNum ![0, 1, 2] ![0, 1, 2] = 0 ∧
     touchMatrixDivisor ![0, 1, 2] ![0, 1, 2] 0 = 0) := by
  refine ⟨fun dX dY tX tY => rfl, fun tX tY i h => h, by decide, by decide⟩

/-- C6 (witness): for the non-collinear touch points
`(0,2000), (0,0), (2000,0)` the divisor of every division is
nonzero. -/
theorem C6_no_determinant_check_witness :
    touchMatrixDivisor ![0, 0, 2000] ![2000, 0, 0] 0 ≠ 0 :=
  C6_no_determinant_check.2.1 ![0, 0, 2000] ![2000, 0, 0] 0 (by decide)

/-- C7: the six coefficients `Calibrate_Fixed` computes and writes are
a pure function of its four arguments: two runs from arbitrary
distinct engine states emit identical write traces, and the trace is
exactly the six touch-transform registers written in sequence with the
matrix of the implicit corner points. -/
theorem C7_calibrate_fixed_deterministic (w h tx ty : Int) (s1 s2 : EveState) :
    (Calibrate_Fixed w h tx ty s1).2 = (Calibrate_Fixed w h tx ty s2).2 ∧
    (Calibrate_Fixed w h tx ty s1).2 =
      (List.range 6).map (fun count =>
        Ev.wr32 (REG_TOUCH_TRANSFORM_A + RAM_REG + count * 4)
          (((calculate_touch_matrix ![0, w, w] ![0, 0, h] ![0, tx, tx] ![0, 0, ty]).getD
              count 0).toNat)) := by
  exact ⟨rfl, by simp [Calibrate_Fixed]⟩

/-- C5 (counterexample): with display points `(0,0), (2000,0), (0,0)`
and non-collinear touch points `(0,2000), (0,0), (2000,0)` — all
coordinates at most 2000 — the constant-term determinant is
8000000000, which overflows the `int32_t` accumulator `tmp`
(wrapping to -589934592), and applying the resulting coefficients to
touch point 0 misses display point 0 by far more than one pixel. -/
theorem C5_transform_close_counterexample :
    (∀ i : Fin 3,
      (0 ≤ (![0, 2000, 0] : Fin 3 → Int) i ∧ (![0, 2000, 0] : Fin 3 → Int) i ≤ 2000) ∧
      (0 ≤ (![0, 0, 0] : Fin 3 → Int) i ∧ (![0, 0, 0] : Fin 3 → Int) i ≤ 2000) ∧
      (0 ≤ (![0, 0, 2000] : Fin 3 → Int) i ∧ (![0, 0, 2000] : Fin 3 → Int) i ≤ 2000) ∧
      (0 ≤ (![2000, 0, 0] : Fin 3 → Int) i ∧ (![2000, 0, 0] : Fin 3 → Int) i ≤ 2000)) ∧
    kNum ![0, 0, 2000] ![2000, 0, 0] ≠ 0 ∧
    cNum ![0, 2000, 0] ![0, 0, 2000] ![2000, 0, 0] = 8000000000 ∧
    wrap32 (cNum ![0, 2000, 0] ![0, 0, 2000] ![2000, 0, 0]) = -589934592 ∧
    ¬ (|applyMatrixX
          (calculate_touch_matrix ![0, 2000, 0] ![0, 0, 0] ![0, 0, 2000] ![2000, 0, 0])
          ((![0, 0, 2000] : Fin 3 → Int) 0) ((![2000, 0, 0] : Fin 3 → Int) 0)
        - 2 ^ 16 * (![0, 2000, 0] : Fin 3 → Int) 0| ≤ 2 ^ 16) := by
  decide

/-- C5 (amended): for non-collinear touch points with all coordinates
at most 2000, applying the six 16.16 coefficients of
`calculate_touch_matrix` to each input touch point reproduces the
corresponding display point to within one pixel (2^16 in 16.16),
provided additionally that no 32-bit overflow occurs: the two
constant-term determinants and the six 16.16 quotients must each fit
in a signed 32-bit integer (the linear-term determinants always do at
this coordinate range). -/
theorem C5_transform_close_amended (dX dY tX tY : Fin 3 → Int)
    (hdX : ∀ i, 0 ≤ dX i ∧ dX i ≤ 2000) (hdY : ∀ i, 0 ≤ dY i ∧ dY i ≤ 2000)
    (htX : ∀ i, 0 ≤ tX i ∧ tX i ≤ 2000) (htY : ∀ i, 0 ≤ tY i ∧ tY i ≤ 2000)
    (hk : kNum tX tY ≠ 0)
    (hcX : inBounds32 (cNum dX tX tY)) (hcY : inBounds32 (cNum dY tX tY))
    (hqX0 : inBounds32 ((aNum dX tX tY * 2 ^ 16).tdiv (kNum tX tY)))
    (hqX1 : inBounds32 ((bNum dX tX tY * 2 ^ 16).tdiv (kNum tX tY)))
    (hqX2 : inBounds32 ((cNum dX tX tY * 2 ^ 16).tdiv (kNum tX tY)))
    (hqY0 : inBounds32 ((aNum dY tX tY * 2 ^ 16).tdiv (kNum tX tY)))
    (hqY1 : inBounds32 ((bNum dY tX tY * 2 ^ 16).tdiv (kNum tX tY)))
    (hqY2 : inBounds32 ((cNum dY tX tY * 2 ^ 16).tdiv (kNum tX tY))) :
    ∀ i : Fin 3,
      |applyMatrixX (calculate_touch_matrix dX dY tX tY) (tX i) (tY i)
        - 2 ^ 16 * dX i| ≤ 2 ^ 16 ∧
      |applyMatrixY (calculate_touch_matrix dX dY tX tY) (tX i) (tY i)
        - 2 ^ 16 * dY i| ≤ 2 ^ 16 := by
  have hkb := abs_le.mp (kNum_abs_le tX tY htX htY)
  have hkw : wrap32 (kNum tX tY) = kNum tX tY :=
    wrap32_eq_self (by omega) (by omega)
  have haXb := abs_le.mp (aNum_abs_le dX tX tY hdX htY)
  have haXw : wrap32 (aNum dX tX tY) = aNum dX tX tY :=
    wrap32_eq_self (by omega) (by omega)
  have hbXb := abs_le.mp (bNum_abs_le dX tX tY hdX htX)
  have hbXw : wrap32 (bNum dX tX tY) = bNum dX tX tY :=
    wrap32_eq_self (by omega) (by omega)
  have hcXw : wrap32 (cNum dX tX tY) = cNum dX tX tY :=
    wrap32_eq_self hcX.1 hcX.2
  have haYb := abs_le.mp (aNum_abs_le dY tX tY hdY htY)
  have haYw : wrap32 (aNum dY tX tY) = aNum dY tX tY :=
    wrap32_eq_self (by omega) (by omega)
  have hbYb := abs_le.mp (bNum_abs_le dY tX tY hdY htX)
  have hbYw : wrap32 (bNum dY tX tY) = bNum dY tX tY :=
    wrap32_eq_self (by omega) (by omega)
  have hcYw : wrap32 (cNum dY tX tY) = cNum dY tX tY :=
    wrap32_eq_self hcY.1 hcY.2
  have hA : wrap32 ((calculate_touch_matrix dX dY tX tY).getD 0 0) =
      (aNum dX tX tY * 2 ^ 16).tdiv (kNum tX tY) := by
    have hm : (calculate_touch_matrix dX dY tX tY).getD 0 0 =
        coeffStored (wrap32 (aNum dX tX tY)) (wrap32 (kNum tX tY)) := rfl
    rw [hm, haXw, hkw]
    unfold coeffStored
    rw [wrap32_mod]
    exact wrap32_eq_self hqX0.1 hqX0.2
  have hB : wrap32 ((calculate_touch_matrix dX dY tX tY).getD 1 0) =
      (bNum dX tX tY * 2 ^ 16).tdiv (kNum tX tY) := by
    have hm : (calculate_touch_matrix dX dY tX tY).getD 1 0 =
        coeffStored (wrap32 (bNum dX tX tY)) (wrap32 (kNum tX tY)) := rfl
    rw [hm, hbXw, hkw]
    unfold coeffStored
    rw [wrap32_mod]
    exact wrap32_eq_self hqX1.1 hqX1.2
  have hC : wrap32 ((calculate_touch_matrix dX dY tX tY).getD 2 0) =
      (cNum dX tX tY * 2 ^ 16).tdiv (kNum tX tY) := by
    have hm : (calculate_touch_matrix dX dY tX tY).getD 2 0 =
        coeffStored (wrap32 (cNum dX tX tY)) (wrap32 (kNum tX tY)) := rfl
    rw [hm, hcXw, hkw]
    unfold coeffStored
    rw [wrap32_mod]
    exact wrap32_eq_self hqX2.1 hqX2.2
  have hD : wrap32 ((calculate_touch_matrix dX dY tX tY).getD 3 0) =
      (aNum dY tX tY * 2 ^ 16).tdiv (kNum tX tY) := by
    have hm : (calculate_touch_matrix dX dY tX tY).getD 3 0 =
        coeffStored (wrap32 (aNum dY tX tY)) (wrap32 (kNum tX tY)) := rfl
    rw [hm, haYw, hkw]
    unfold coeffStored
    rw [wrap32_mod]
    exact wrap32_eq_self hqY0.1 hqY0.2
  have hE : wrap32 ((calculate_touch_matrix dX dY tX tY).getD 4 0) =
      (bNum dY tX tY * 2 ^ 16).tdiv (kNum tX tY) := by
    have hm : (calculate_touch_matrix dX dY tX tY).getD 4 0 =
        coeffStored (wrap32 (bNum dY tX tY)) (wrap32 (kNum tX tY)) := rfl
    rw [hm, hbYw, hkw]
    unfold coeffStored
    rw [wrap32_mod]
    exact wrap32_eq_self hqY1.1 hqY1.2
  have hF : wrap32 ((calculate_touch_matrix dX dY tX tY).getD 5 0) =
      (cNum dY tX tY * 2 ^ 16).tdiv (kNum tX tY) := by
    have hm : (calculate_touch_matrix dX dY tX tY).getD 5 0 =
        coeffStored (wrap32 (cNum dY tX tY)) (wrap32 (kNum tX tY)) := rfl
    rw [hm, hcYw, hkw]
    unfold coeffStored
    rw [wrap32_mod]
    exact wrap32_eq_self hqY2.1 hqY2.2
  intro i
  constructor
  · unfold applyMatrixX
    rw [hA, hB, hC]
    fin_cases i
    · exact coeff_apply_close _ _ _ _ _ _ _ hk (cramer0 dX tX tY)
        (htX 0).1 (htX 0).2 (htY 0).1 (htY 0).2
    · exact coeff_apply_close _ _ _ _ _ _ _ hk (cramer1 dX tX tY)
        (htX 1).1 (htX 1).2 (htY 1).1 (htY 1).2
    · exact coeff_apply_close _ _ _ _ _ _ _ hk (cramer2 dX tX tY)
        (htX 2).1 (htX 2).2 (htY 2).1 (htY 2).2
  · unfold applyMatrixY
    rw [hD, hE, hF]
    fin_cases i
    · exact coeff_apply_close _ _ _ _ _ _ _ hk (cramer0 dY tX tY)
        (htX 0).1 (htX 0).2 (htY 0).1 (htY 0).2
    · exact coeff_apply_close _ _ _ _ _ _ _ hk (cramer1 dY tX tY)
        (htX 1).1 (htX 1).2 (htY 1).1 (htY 1).2
    · exact coeff_apply_close _ _ _ _ _ _ _ hk (cramer2 dY tX tY)
        (htX 2).1 (htX 2).2 (htY 2).1 (htY 2).2

/-- C5 (witness): the amended bound at a concrete well-conditioned
instance (an 800 by 480 display against a 1000 by 1000 touch range). -/
theorem C5_transform_close_witness :
    |applyMatrixX
        (calculate_touch_matrix ![0, 800, 800] ![0, 0, 480] ![0, 1000, 1000] ![0, 0, 1000])
        ((![0, 1000, 1000] : Fin 3 → Int) 0) ((![0, 0, 1000] : Fin 3 → Int) 0)
      - 2 ^ 16 * (![0, 800, 800] : Fin 3 → Int) 0| ≤ 2 ^ 16 :=
  (C5_transform_close_amended ![0, 800, 800] ![0, 0, 480] ![0, 1000, 1000] ![0, 0, 1000]
    (by decide) (by decide) (by decide) (by decide) (by decide) (by decide) (by decide)
    (by decide) (by decide) (by decide) (by decide) (by decide) (by decide) 0).1

/-! ## Diagonal form of the fixed calibration -/

theorem tdiv_mul_cancel_right {a b c : Int} (ha : 0 ≤ a) (hb : 0 < b) (hc : 0 < c) :
    ((a * c).tdiv (b * c)) = a.tdiv b := by
  rw [Int.tdiv_eq_ediv (by positivity) (by positivity),
      Int.tdiv_eq_ediv ha (le_of_lt hb)]
  rw [show a * c = c * a by ring, show b * c = c * b by ring]
  exact Int.mul_ediv_mul_of_pos _ _ hc

/-- C9: for `0 < tx ≤ 16384`, `0 < ty ≤ 16384`, `0 ≤ w ≤ 2048` and
`0 ≤ h ≤ 2048`, `Calibrate_Fixed` writes exactly the diagonal matrix
to the six consecutive touch-transform registers: coefficient 0 is
`(w << 16) / tx`, coefficient 4 is `(h << 16) / ty`, and coefficients
1, 2, 3 and 5 are zero. -/
theorem C9_calibrate_fixed_diagonal (w h tx ty : Int) (s : EveState)
    (hw1 : 0 ≤ w) (hw2 : w ≤ 2048) (hh1 : 0 ≤ h) (hh2 : h ≤ 2048)
    (htx1 : 0 < tx) (htx2 : tx ≤ 16384) (hty1 : 0 < ty) (hty2 : ty ≤ 16384) :
    (Calibrate_Fixed w h tx ty s).2 =
      [ Ev.wr32 (REG_TOUCH_TRANSFORM_A + RAM_REG) ((w * 2 ^ 16).tdiv tx).toNat,
        Ev.wr32 (REG_TOUCH_TRANSFORM_A + RAM_REG + 4) 0,
        Ev.wr32 (REG_TOUCH_TRANSFORM_A + RAM_REG + 8) 0,
        Ev.wr32 (REG_TOUCH_TRANSFORM_A + RAM_REG + 12) 0,
        Ev.wr32 (REG_TOUCH_TRANSFORM_A + RAM_REG + 16) ((h * 2 ^ 16).tdiv ty).toNat,
        Ev.wr32 (REG_TOUCH_TRANSFORM_A + RAM_REG + 20) 0 ] := by
  have hka : kNum ![0, tx, tx] ![0, 0, ty] = tx * ty := by
    simp [kNum]
  have haX : aNum ![0, w, w] ![0, tx, tx] ![0, 0, ty] = w * ty := by
    simp [aNum]
  have hbX : bNum ![0, w, w] ![0, tx, tx] ![0, 0, ty] = 0 := by
    simp [bNum]
  have hcX : cNum ![0, w, w] ![0, tx, tx] ![0, 0, ty] = 0 := by
    simp [cNum]
  have haY : aNum ![0, 0, h] ![0, tx, tx] ![0, 0, ty] = 0 := by
    simp [aNum]
  have hbY : bNum ![0, 0, h] ![0, tx, tx] ![0, 0, ty] = tx * h := by
    simp [bNum]
  have hcY : cNum ![0, 0, h] ![0, tx, tx] ![0, 0, ty] = 0 := by
    simp [cNum]
  have hwk : wrap32 (kNum ![0, tx, tx] ![0, 0, ty]) = tx * ty := by
    rw [hka]
    have h1 : tx * ty ≤ 16384 * 16384 :=
      mul_le_mul htx2 hty2 (le_of_lt hty1) (by norm_num)
    have h2 : 0 < tx * ty := mul_pos htx1 hty1
    exact wrap32_eq_self (by omega) (by omega)
  have hwaX : wrap32 (aNum ![0, w, w] ![0, tx, tx] ![0, 0, ty]) = w * ty := by
    rw [haX]
    have h1 : w * ty ≤ 2048 * 16384 :=
      mul_le_mul hw2 hty2 (le_of_lt hty1) (by norm_num)
    have h2 : 0 ≤ w * ty := mul_nonneg hw1 (le_of_lt hty1)
    exact wrap32_eq_self (by omega) (by omega)
  have hwbY : wrap32 (bNum ![0, 0, h] ![0, tx, tx] ![0, 0, ty]) = tx * h := by
    rw [hbY]
    have h1 : tx * h ≤ 16384 * 2048 :=
      mul_le_mul htx2 hh2 hh1 (by norm_num)
    have h2 : 0 ≤ tx * h := mul_nonneg (le_of_lt htx1) hh1
    exact wrap32_eq_self (by omega) (by omega)
  have hzero : ∀ k : Int, coeffStored (wrap32 0) k = 0 := by
    intro k
    have : wrap32 0 = 0 := wrap32_eq_self (by norm_num) (by norm_num)
    rw [this]
    unfold coeffStored
    simp [Int.zero_tdiv]
  have hc0 : coeffStored (wrap32 (aNum ![0, w, w] ![0, tx, tx] ![0, 0, ty]))
      (wrap32 (kNum ![0, tx, tx] ![0, 0, ty])) = (w * 2 ^ 16).tdiv tx := by
    rw [hwaX, hwk]
    unfold coeffStored
    have hq : (w * ty * 2 ^ 16).tdiv (tx * ty) = (w * 2 ^ 16).tdiv tx := by
      rw [show w * ty * 2 ^ 16 = (w * 2 ^ 16) * ty by ring]
      exact tdiv_mul_cancel_right (by positivity) htx1 hty1
    rw [hq]
    have h0 : 0 ≤ (w * 2 ^ 16).tdiv tx := Int.tdiv_nonneg (by positivity) (le_of_lt htx1)
    have h1 : (w * 2 ^ 16).tdiv tx ≤ w * 2 ^ 16 := by
      rw [Int.tdiv_eq_ediv (by positivity) (le_of_lt htx1)]
      exact Int.ediv_le_self _ (by positivity)
    exact Int.emod_eq_of_lt h0 (by omega)
  have hc4 : coeffStored (wrap32 (bNum ![0, 0, h] ![0, tx, tx] ![0, 0, ty]))
      (wrap32 (kNum ![0, tx, tx] ![0, 0, ty])) = (h * 2 ^ 16).tdiv ty := by
    rw [hwbY, hwk]
    unfold coeffStored
    have hq : (tx * h * 2 ^ 16).tdiv (tx * ty) = (h * 2 ^ 16).tdiv ty := by
      rw [show tx * h * 2 ^ 16 = tx * (h * 2 ^ 16) by ring,
          Int.tdiv_eq_ediv (by positivity) (by positivity),
          Int.tdiv_eq_ediv (by positivity) (le_of_lt hty1)]
      exact Int.mul_ediv_mul_of_pos _ _ htx1
    rw [hq]
    have h0 : 0 ≤ (h * 2 ^ 16).tdiv ty := Int.tdiv_nonneg (by positivity) (le_of_lt hty1)
    have h1 : (h * 2 ^ 16).tdiv ty ≤ h * 2 ^ 16 := by
      rw [Int.tdiv_eq_ediv (by positivity) (le_of_lt hty1)]
      exact Int.ediv_le_self _ (by positivity)
    exact Int.emod_eq_of_lt h0 (by omega)
  have htrace : (Calibrate_Fixed w h tx ty s).2 =
      [ Ev.wr32 (REG_TOUCH_TRANSFORM_A + RAM_REG + 0 * 4)
          ((coeffStored (wrap32 (aNum ![0, w, w] ![0, tx, tx] ![0, 0, ty]))
            (wrap32 (kNum ![0, tx, tx] ![0, 0, ty]))).toNat),
        Ev.wr32 (REG_TOUCH_TRANSFORM_A + RAM_REG + 1 * 4)
          ((coeffStored (wrap32 (bNum ![0, w, w] ![0, tx, tx] ![0, 0, ty]))
            (wrap32 (kNum ![0, tx, tx] ![0, 0, ty]))).toNat),
        Ev.wr32 (REG_TOUCH_TRANSFORM_A + RAM_REG + 2 * 4)
          ((coeffStored (wrap32 (cNum ![0, w, w] ![0, tx, tx] ![0, 0, ty]))
            (wrap32 (kNum ![0, tx, tx] ![0, 0, ty]))).toNat),
        Ev.wr32 (REG_TOUCH_TRANSFORM_A + RAM_REG + 3 * 4)
          ((coeffStored (wrap32 (aNum ![0, 0, h] ![0, tx, tx] ![0, 0, ty]))
            (wrap32 (kNum ![0, tx, tx] ![0, 0, ty]))).toNat),
        Ev.wr32 (REG_TOUCH_TRANSFORM_A + RAM_REG + 4 * 4)
          ((coeffStored (wrap32 (bNum ![0, 0, h] ![0, tx, tx] ![0, 0, ty]))
            (wrap32 (kNum ![0, tx, tx] ![0, 0, ty]))).toNat),
        Ev.wr32 (REG_TOUCH_TRANSFORM_A + RAM_REG + 5 * 4)
          ((coeffStored (wrap32 (cNum ![0, 0, h] ![0, tx, tx] ![0, 0, ty]))
            (wrap32 (kNum ![0, tx, tx] ![0, 0, ty]))).toNat) ] := rfl
  rw [htrace, hc0, hc4]
  rw [show cNum ![0, w, w] ![0, tx, tx] ![0, 0, ty] = 0 from hcX,
      show aNum ![0, 0, h] ![0, tx, tx] ![0, 0, ty] = 0 from haY,
      show cNum ![0, 0, h] ![0, tx, tx] ![0, 0, ty] = 0 from hcY,
      show bNum ![0, w, w] ![0, tx, tx] ![0, 0, ty] = 0 from hbX]
  rw [hzero]
  norm_num

/-- C9 (witness): the fixed calibration of an 800 by 480 panel with
16384 by 16384 touch range writes 3200, 0, 0, 0, 1920, 0 to the six
registers. -/
theorem C9_calibrate_fixed_diagonal_witness :
    (Calibrate_Fixed 800 480 16384 16384 ⟨0, fun _ => 0⟩).2 =
      [ Ev.wr32 (REG_TOUCH_TRANSFORM_A + RAM_REG) 3200,
        Ev.wr32 (REG_TOUCH_TRANSFORM_A + RAM_REG + 4) 0,
        Ev.wr32 (REG_TOUCH_TRANSFORM_A + RAM_REG + 8) 0,
        Ev.wr32 (REG_TOUCH_TRANSFORM_A + RAM_REG + 12) 0,
        Ev.wr32 (REG_TOUCH_TRANSFORM_A + RAM_REG + 16) 1920,
        Ev.wr32 (REG_TOUCH_TRANSFORM_A + RAM_REG + 20) 0 ] := by
  have h := C9_calibrate_fixed_diagonal 800 480 16384 16384 ⟨0, fun _ => 0⟩
    (by decide) (by decide) (by decide) (by decide)
    (by decide) (by decide) (by decide) (by decide)
  rw [h]
  decide

end EveLib
